import Mathlib

/-! Shallow embedding of the bank-account ledger simulator (`simulateur.py`):
`Operation`, `CompteBancaire`, `Banque` and the JSON persistence layer,
together with proofs of the ledger contract. Python floats are modelled by
exact rationals, Python dicts by insertion-ordered association lists,
`datetime.now()` by an explicit timestamp argument, and raised exceptions
(`KeyError`, JSON parse errors) by `Option` / an explicit file-content sum. -/

namespace BanqueSim

/-- One history entry, mirroring the Python class `Operation`
(fields `date`, `type`, `montant`, `description`). -/
structure Operation where
  date : String
  type : String
  montant : ℚ
  description : String
deriving DecidableEq, Repr

/-- `Operation.__init__`: `datetime.now().isoformat()` is passed in as `now`. -/
def Operation.make (now type_op : String) (montant : ℚ) (description : String) : Operation :=
  ⟨now, type_op, montant, description⟩

/-- The flat JSON record an `Operation` serialises to; `Option` fields model
possibly-missing JSON keys of a persisted (possibly hand-edited) file. -/
structure OpRecord where
  date : Option String
  type : Option String
  montant : Option ℚ
  description : Option String
deriving DecidableEq, Repr

/-- `Operation.to_dict`. -/
def Operation.to_dict (op : Operation) : OpRecord :=
  ⟨some op.date, some op.type, some op.montant, some op.description⟩

/-- `Operation.from_dict`: `data["type"]`, `data["montant"]`, `data["date"]`
raise `KeyError` when absent (modelled by `none`); `description` uses
`data.get("description", "")`. -/
def Operation.from_dict (data : OpRecord) : Option Operation :=
  match data.type, data.montant, data.date with
  | some t, some m, some dt => some ⟨dt, t, m, data.description.getD ""⟩
  | _, _, _ => none

/-- A bank account, mirroring the Python class `CompteBancaire`
(fields `numero`, `titulaire`, `solde`, `decouvert_max`, `historique`). -/
structure CompteBancaire where
  numero : String
  titulaire : String
  solde : ℚ
  decouvert_max : ℚ
  historique : List Operation
deriving DecidableEq, Repr

/-- `CompteBancaire.__init__`: a synthetic "Solde initial" deposit entry is
appended exactly when `solde_initial > 0` and not loading. -/
def CompteBancaire.init (now numero titulaire : String) (solde_initial decouvert_max : ℚ)
    (is_loading : Bool) : CompteBancaire :=
  ⟨numero, titulaire, solde_initial, decouvert_max,
    if solde_initial > 0 ∧ is_loading = false then
      [Operation.make now "depot" solde_initial "Solde initial"]
    else []⟩

/-- `CompteBancaire.deposer`: returns the Python `bool` result together with
the post-state of the account. -/
def CompteBancaire.deposer (c : CompteBancaire) (now : String) (montant : ℚ)
    (description : String) : Bool × CompteBancaire :=
  if montant ≤ 0 then (false, c)
  else
    (true, { c with solde := c.solde + montant,
                    historique := c.historique ++ [Operation.make now "depot" montant description] })

/-- `CompteBancaire.retirer`: fails on a non-positive amount or when the new
balance would cross `-decouvert_max`. -/
def CompteBancaire.retirer (c : CompteBancaire) (now : String) (montant : ℚ)
    (description : String) : Bool × CompteBancaire :=
  if montant ≤ 0 then (false, c)
  else
    let seuil_decouvert := -c.decouvert_max
    let nouveau_solde := c.solde - montant
    if nouveau_solde < seuil_decouvert then (false, c)
    else
      (true, { c with solde := nouveau_solde,
                      historique := c.historique ++ [Operation.make now "retrait" montant description] })

/-- The JSON record a `CompteBancaire` serialises to. -/
structure CompteRecord where
  numero : Option String
  titulaire : Option String
  solde : Option ℚ
  decouvert_max : Option ℚ
  historique : Option (List OpRecord)
deriving DecidableEq, Repr

/-- `CompteBancaire.to_dict`. -/
def CompteBancaire.to_dict (c : CompteBancaire) : CompteRecord :=
  ⟨some c.numero, some c.titulaire, some c.solde, some c.decouvert_max,
    some (c.historique.map Operation.to_dict)⟩

/-- The Python list comprehension `[Operation.from_dict(op) for op in ...]`:
an exception on any entry aborts the whole list. -/
def decodeOps : List OpRecord → Option (List Operation)
  | [] => some []
  | r :: rest =>
    match Operation.from_dict r, decodeOps rest with
    | some op, some ops => some (op :: ops)
    | _, _ => none

/-- `CompteBancaire.from_dict`: constructs with `is_loading=True` (so no
synthetic opening deposit), then overwrites `historique` with the decoded
persisted history; `decouvert_max` defaults to `0` when absent, every other
field is required. -/
def CompteBancaire.from_dict (data : CompteRecord) : Option CompteBancaire :=
  match data.numero, data.titulaire, data.solde, data.historique with
  | some num, some tit, some s, some raw =>
    match decodeOps raw with
    | some hist =>
      some { CompteBancaire.init "" num tit s (data.decouvert_max.getD 0) true with
              historique := hist }
    | none => none
  | _, _, _, _ => none

/-- The ledger, mirroring the Python class `Banque`: its dict `comptes` is an
insertion-ordered association list. -/
structure Banque where
  comptes : List (String × CompteBancaire)
deriving DecidableEq, Repr

/-- Python `self.comptes[num]` / `num in self.comptes`: first entry with the key. -/
def lookupCompte : List (String × CompteBancaire) → String → Option CompteBancaire
  | [], _ => none
  | p :: rest, num => if p.1 = num then some p.2 else lookupCompte rest num

/-- In-place mutation of the account stored under `num`. -/
def updateCompte : List (String × CompteBancaire) → String → CompteBancaire →
    List (String × CompteBancaire)
  | [], _, _ => []
  | p :: rest, num, c => (if p.1 = num then (p.1, c) else p) :: updateCompte rest num c

/-- `Banque.creer_compte`: `None` (and an unchanged dict) when the id exists,
otherwise inserts a fresh account built with `is_loading=False` and returns it. -/
def Banque.creer_compte (b : Banque) (now numero titulaire : String)
    (solde_initial decouvert_max : ℚ) : Option CompteBancaire × Banque :=
  if (lookupCompte b.comptes numero).isSome then (none, b)
  else
    let compte := CompteBancaire.init now numero titulaire solde_initial decouvert_max false
    (some compte, ⟨b.comptes ++ [(numero, compte)]⟩)

/-- `Banque.supprimer_compte`. -/
def Banque.supprimer_compte (b : Banque) (numero : String) : Bool × Banque :=
  if (lookupCompte b.comptes numero).isSome then
    (true, ⟨b.comptes.filter fun p => decide (p.1 ≠ numero)⟩)
  else (false, b)

/-- `Banque.virement`: guard, then `retirer` on the source; on its success,
`deposer` on the destination (whose `bool` result Python ignores) and `True`. -/
def Banque.virement (b : Banque) (nowOut nowIn src dest : String) (montant : ℚ) :
    Bool × Banque :=
  match lookupCompte b.comptes src, lookupCompte b.comptes dest with
  | some csrc, some cdest =>
    if src = dest then (false, b)
    else
      let r := csrc.retirer nowOut montant ("Virement sortant vers " ++ dest)
      if r.1 then
        let d := cdest.deposer nowIn montant ("Virement entrant de " ++ src)
        (true, ⟨updateCompte (updateCompte b.comptes src r.2) dest d.2⟩)
      else (false, b)
  | _, _ => (false, b)

/-- `Banque.sauvegarder`: the JSON document written out, keyed by account id. -/
def Banque.sauvegarder (b : Banque) : List (String × CompteRecord) :=
  b.comptes.map fun p => (p.1, p.2.to_dict)

/-- What `Banque.charger` finds at the path: no file, a file whose JSON does
not parse, or a parsed top-level object. -/
inductive FileContent where
  | absent
  | malformed
  | parsed (data : List (String × CompteRecord))
deriving DecidableEq, Repr

/-- One entry of the dict comprehension in `Banque.charger`. -/
def decodeEntry (p : String × CompteRecord) : Option (String × CompteBancaire) :=
  (CompteBancaire.from_dict p.2).map fun c => (p.1, c)

/-- The dict comprehension `{num: CompteBancaire.from_dict(c) for num, c in
data.items()}`: an exception on any entry aborts the whole dict. -/
def decodeComptes : List (String × CompteRecord) → Option (List (String × CompteBancaire))
  | [] => some []
  | p :: rest =>
    match decodeEntry p, decodeComptes rest with
    | some q, some qs => some (q :: qs)
    | _, _ => none

/-- `Banque.charger`: absent file leaves `comptes` untouched; any exception
(JSON parse failure or a missing required field) resets `comptes` to `{}`;
otherwise the mapping is wholly replaced. -/
def Banque.charger (b : Banque) (f : FileContent) : Banque :=
  match f with
  | FileContent.absent => b
  | FileContent.malformed => ⟨[]⟩
  | FileContent.parsed data =>
    match decodeComptes data with
    | some comptes => ⟨comptes⟩
    | none => ⟨[]⟩

/-- The balance invariant of the spec: `balance >= -overdraft_limit`. -/
def CompteBancaire.invariant (c : CompteBancaire) : Prop :=
  -c.decouvert_max ≤ c.solde

instance (c : CompteBancaire) : Decidable c.invariant :=
  inferInstanceAs (Decidable (-c.decouvert_max ≤ c.solde))

/-! ### Helper lemmas -/

theorem retirer_true (c : CompteBancaire) (now desc : String) (montant : ℚ)
    (h : (c.retirer now montant desc).1 = true) :
    0 < montant ∧ (c.retirer now montant desc).2.solde = c.solde - montant ∧
      (c.retirer now montant desc).2.historique
        = c.historique ++ [Operation.make now "retrait" montant desc] := by
  by_cases h1 : montant ≤ 0
  · simp [CompteBancaire.retirer, h1] at h
  · by_cases h2 : c.solde - montant < -c.decouvert_max
    · simp [CompteBancaire.retirer, h1, h2] at h
    · exact ⟨not_le.mp h1, by simp [CompteBancaire.retirer, h1, h2]⟩

theorem deposer_true (c : CompteBancaire) (now desc : String) (montant : ℚ)
    (h : 0 < montant) :
    (c.deposer now montant desc).1 = true ∧
      (c.deposer now montant desc).2.solde = c.solde + montant ∧
      (c.deposer now montant desc).2.historique
        = c.historique ++ [Operation.make now "depot" montant desc] := by
  simp [CompteBancaire.deposer, not_le.mpr h]

theorem deposer_invariant (c : CompteBancaire) (now desc : String) (montant : ℚ)
    (h : c.invariant) : (c.deposer now montant desc).2.invariant := by
  by_cases h1 : montant ≤ 0
  · simpa [CompteBancaire.deposer, h1]
  · have hpos := not_le.mp h1
    simp only [CompteBancaire.deposer, h1, if_false, CompteBancaire.invariant] at h ⊢
    linarith

theorem retirer_invariant (c : CompteBancaire) (now desc : String) (montant : ℚ)
    (h : c.invariant) : (c.retirer now montant desc).2.invariant := by
  by_cases h1 : montant ≤ 0
  · simpa [CompteBancaire.retirer, h1]
  · by_cases h2 : c.solde - montant < -c.decouvert_max
    · simpa [CompteBancaire.retirer, h1, h2]
    · simp only [CompteBancaire.retirer, h1, if_false, h2, CompteBancaire.invariant]
      exact not_lt.mp h2

theorem lookupCompte_mem (l : List (String × CompteBancaire)) (num : String)
    (c : CompteBancaire) (h : lookupCompte l num = some c) : (num, c) ∈ l := by
  induction l with
  | nil => simp [lookupCompte] at h
  | cons p rest ih =>
    by_cases hp : p.1 = num
    · rw [lookupCompte, if_pos hp] at h
      have h2 : p.2 = c := Option.some.inj h
      rw [← hp, ← h2]
      exact List.mem_cons_self p rest
    · rw [lookupCompte, if_neg hp] at h
      exact List.mem_cons_of_mem p (ih h)

theorem updateCompte_mem (l : List (String × CompteBancaire)) (num : String)
    (c : CompteBancaire) (p : String × CompteBancaire) (hp : p ∈ updateCompte l num c) :
    p.2 = c ∨ p ∈ l := by
  induction l with
  | nil => cases hp
  | cons q rest ih =>
    rw [updateCompte] at hp
    rcases List.mem_cons.mp hp with h1 | h1
    · by_cases h : q.1 = num
      · rw [if_pos h] at h1; left; rw [h1]
      · rw [if_neg h] at h1; right; rw [h1]; exact List.mem_cons_self q rest
    · rcases ih h1 with h2 | h2
      · exact Or.inl h2
      · exact Or.inr (List.mem_cons_of_mem q h2)

theorem lookupCompte_updateCompte_self (l : List (String × CompteBancaire)) (num : String)
    (c : CompteBancaire) :
    lookupCompte (updateCompte l num c) num = (lookupCompte l num).map fun _ => c := by
  induction l with
  | nil => rfl
  | cons p rest ih =>
    by_cases h : p.1 = num
    · simp [updateCompte, lookupCompte, h]
    · simpa [updateCompte, lookupCompte, h] using ih

theorem lookupCompte_updateCompte_ne (l : List (String × CompteBancaire)) (num k : String)
    (c : CompteBancaire) (h : k ≠ num) :
    lookupCompte (updateCompte l num c) k = lookupCompte l k := by
  induction l with
  | nil => rfl
  | cons p rest ih =>
    by_cases hp : p.1 = num
    · have hpk : ¬ p.1 = k := fun hk => h (hk ▸ hp)
      simpa [updateCompte, lookupCompte, hp, hpk, Ne.symm h] using ih
    · by_cases hk : p.1 = k
      · simp [updateCompte, lookupCompte, hp, hk, h]
      · simpa [updateCompte, lookupCompte, hp, hk] using ih

theorem virement_true_comptes (b : Banque) (t1 t2 src dest : String) (montant : ℚ)
    (csrc cdest : CompteBancaire)
    (hs : lookupCompte b.comptes src = some csrc)
    (hd : lookupCompte b.comptes dest = some cdest)
    (he : ¬ src = dest)
    (hr : (csrc.retirer t1 montant ("Virement sortant vers " ++ dest)).1 = true) :
    (b.virement t1 t2 src dest montant).1 = true ∧
    (b.virement t1 t2 src dest montant).2.comptes
      = updateCompte (updateCompte b.comptes src
          (csrc.retirer t1 montant ("Virement sortant vers " ++ dest)).2) dest
          (cdest.deposer t2 montant ("Virement entrant de " ++ src)).2 := by
  simp [Banque.virement, hs, hd, he, hr]

theorem virement_false_state (b : Banque) (t1 t2 src dest : String) (montant : ℚ)
    (h : (b.virement t1 t2 src dest montant).1 = false) :
    (b.virement t1 t2 src dest montant).2 = b := by
  cases hs : lookupCompte b.comptes src with
  | none => simp [Banque.virement, hs]
  | some csrc =>
    cases hd : lookupCompte b.comptes dest with
    | none => simp [Banque.virement, hs, hd]
    | some cdest =>
      by_cases he : src = dest
      · simp [Banque.virement, hs, hd, he]
      · by_cases hr : (csrc.retirer t1 montant ("Virement sortant vers " ++ dest)).1 = true
        · exfalso
          have := (virement_true_comptes b t1 t2 src dest montant csrc cdest hs hd he hr).1
          rw [this] at h; exact Bool.noConfusion h
        · simp [Banque.virement, hs, hd, he, hr]

theorem decodeComptes_mem (data : List (String × CompteRecord))
    (cs : List (String × CompteBancaire)) (h : decodeComptes data = some cs) :
    ∀ p ∈ cs, ∃ q ∈ data, decodeEntry q = some p := by
  induction data generalizing cs with
  | nil =>
    simp only [decodeComptes, Option.some.injEq] at h
    subst h; simp
  | cons q rest ih =>
    cases hq : decodeEntry q with
    | none => simp [decodeComptes, hq] at h
    | some q2 =>
      cases hrest : decodeComptes rest with
      | none => simp [decodeComptes, hq, hrest] at h
      | some qs =>
        simp only [decodeComptes, hq, hrest, Option.some.injEq] at h
        subst h
        intro p hp
        rcases List.mem_cons.mp hp with hpq | hpq
        · exact ⟨q, List.mem_cons_self q rest, by rw [hq, hpq]⟩
        · rcases ih qs hrest p hpq with ⟨q3, hq3, hdq3⟩
          exact ⟨q3, List.mem_cons_of_mem q hq3, hdq3⟩

/-- C1 is false as stated: account creation neither preserves the invariant
`balance >= -overdraft_limit` nor rejects a violating request — `creer_compte`
with initial balance `-5` and overdraft limit `0` succeeds and installs an
account whose balance is below `-overdraft_limit`. -/
theorem C1_invariant_cex :
    ((Banque.mk []).creer_compte "t" "A1" "Alice" (-5) 0).1
        = some (CompteBancaire.init "t" "A1" "Alice" (-5) 0 false) ∧
    ¬ (CompteBancaire.init "t" "A1" "Alice" (-5) 0 false).invariant := by
  constructor
  · rfl
  · norm_num [CompteBancaire.init, CompteBancaire.invariant]

/-- C1 (amended): every deposit, withdrawal and transfer preserves the
invariant `balance >= -overdraft_limit` (a rejected operation mutates
nothing), and `creer_compte` establishes it exactly when
`initial_balance >= -overdraft_limit`; creation with a more negative initial
balance produces a violating account, and `charger` installs exactly the
decoded accounts, so the invariant holds after a load whenever every decoded
account satisfies it (vacuously after a malformed file, and by preservation
when the file is absent). -/
theorem C1_invariant_amended (c : CompteBancaire) (b : Banque)
    (t1 t2 src dest numero titulaire desc : String) (montant solde_initial dm : ℚ)
    (data : List (String × CompteRecord)) :
    (c.invariant → (c.deposer t1 montant desc).2.invariant) ∧
    (c.invariant → (c.retirer t1 montant desc).2.invariant) ∧
    ((∀ p ∈ b.comptes, p.2.invariant) →
      ∀ p ∈ (b.virement t1 t2 src dest montant).2.comptes, p.2.invariant) ∧
    (-dm ≤ solde_initial →
      ∀ co, (b.creer_compte t1 numero titulaire solde_initial dm).1 = some co →
        co.invariant) ∧
    (solde_initial < -dm →
      ∀ co, (b.creer_compte t1 numero titulaire solde_initial dm).1 = some co →
        ¬ co.invariant) ∧
    ((∀ p ∈ b.comptes, p.2.invariant) →
      ∀ p ∈ (b.charger FileContent.absent).comptes, p.2.invariant) ∧
    (∀ p ∈ (b.charger FileContent.malformed).comptes, p.2.invariant) ∧
    ((∀ q ∈ data, ∀ p, decodeEntry q = some p → p.2.invariant) →
      ∀ p ∈ (b.charger (FileContent.parsed data)).comptes, p.2.invariant) := by
  refine ⟨fun h => deposer_invariant c t1 desc montant h,
          fun h => retirer_invariant c t1 desc montant h, ?_, ?_, ?_, ?_, ?_, ?_⟩
  · intro hb
    cases hs : lookupCompte b.comptes src with
    | none => simpa [Banque.virement, hs] using hb
    | some csrc =>
      cases hd : lookupCompte b.comptes dest with
      | none => simpa [Banque.virement, hs, hd] using hb
      | some cdest =>
        by_cases he : src = dest
        · simpa [Banque.virement, hs, hd, he] using hb
        · by_cases hr :
              (csrc.retirer t1 montant ("Virement sortant vers " ++ dest)).1 = true
          · intro p hp
            rw [(virement_true_comptes b t1 t2 src dest montant csrc cdest hs hd he hr).2]
              at hp
            rcases updateCompte_mem _ _ _ _ hp with h1 | h1
            · rw [h1]
              exact deposer_invariant cdest t2 ("Virement entrant de " ++ src) montant
                (hb _ (lookupCompte_mem b.comptes dest cdest hd))
            · rcases updateCompte_mem _ _ _ _ h1 with h2 | h2
              · rw [h2]
                exact retirer_invariant csrc t1 ("Virement sortant vers " ++ dest) montant
                  (hb _ (lookupCompte_mem b.comptes src csrc hs))
              · exact hb p h2
          · simpa [Banque.virement, hs, hd, he, hr] using hb
  · intro hle co hco
    by_cases hnum : (lookupCompte b.comptes numero).isSome
    · simp [Banque.creer_compte, hnum] at hco
    · simp [Banque.creer_compte, hnum] at hco
      subst hco
      simpa [CompteBancaire.init, CompteBancaire.invariant] using hle
  · intro hlt co hco
    by_cases hnum : (lookupCompte b.comptes numero).isSome
    · simp [Banque.creer_compte, hnum] at hco
    · simp [Banque.creer_compte, hnum] at hco
      subst hco
      simp only [CompteBancaire.init, CompteBancaire.invariant, not_le]
      exact hlt
  · intro hb
    simpa [Banque.charger] using hb
  · simp [Banque.charger]
  · intro hdata p hp
    rcases hcs : decodeComptes data with _ | cs
    · simp [Banque.charger, hcs] at hp
    · rw [Banque.charger] at hp
      simp only [hcs] at hp
      rcases decodeComptes_mem data cs hcs p hp with ⟨q, hq, hdq⟩
      exact hdata q hq p hdq

/-- C1 witness: a concrete withdrawal inside the overdraft allowance keeps the
invariant (balance `0`, overdraft `50`, withdraw `30`). -/
theorem C1_invariant_amended_witness :
    ((CompteBancaire.mk "A1" "Alice" 0 50 []).retirer "t" 30 "").2.invariant :=
  (C1_invariant_amended (CompteBancaire.mk "A1" "Alice" 0 50 []) (Banque.mk [])
      "t" "t" "s" "d" "n" "o" "" 30 0 0 []).2.1
    (by norm_num [CompteBancaire.invariant])

/-- C5: `deposer` fails exactly when the amount is non-positive, leaving the
account untouched; otherwise it succeeds, adds the amount to the balance and
appends exactly one `depot` operation. -/
theorem C5_deposer_contract (c : CompteBancaire) (now desc : String) (montant : ℚ) :
    ((c.deposer now montant desc).1 = false ↔ montant ≤ 0) ∧
    (montant ≤ 0 → (c.deposer now montant desc).2 = c) ∧
    (0 < montant →
      (c.deposer now montant desc).1 = true ∧
      (c.deposer now montant desc).2.solde = c.solde + montant ∧
      (c.deposer now montant desc).2.historique
        = c.historique ++ [Operation.make now "depot" montant desc]) := by
  refine ⟨?_, ?_, ?_⟩
  · by_cases h : montant ≤ 0 <;> simp [CompteBancaire.deposer, h]
  · intro h; simp [CompteBancaire.deposer, h]
  · intro h; simp [CompteBancaire.deposer, not_le.mpr h]

/-- C5 witness: depositing `-3` on a concrete account changes nothing. -/
theorem C5_deposer_contract_witness :
    ((CompteBancaire.mk "A1" "Alice" 100 0 []).deposer "t" (-3) "").2
      = CompteBancaire.mk "A1" "Alice" 100 0 [] :=
  (C5_deposer_contract (CompteBancaire.mk "A1" "Alice" 100 0 []) "t" "" (-3)).2.1 (by norm_num)

/-- C2: `retirer` fails exactly when the amount is non-positive or the new
balance would cross `-decouvert_max`, leaving the account untouched; otherwise
it succeeds, subtracts the amount and appends exactly one `retrait` operation. -/
theorem C2_retirer_contract (c : CompteBancaire) (now desc : String) (montant : ℚ) :
    ((c.retirer now montant desc).1 = false ↔
      montant ≤ 0 ∨ c.solde - montant < -c.decouvert_max) ∧
    ((c.retirer now montant desc).1 = false → (c.retirer now montant desc).2 = c) ∧
    ((c.retirer now montant desc).1 = true →
      (c.retirer now montant desc).2.solde = c.solde - montant ∧
      (c.retirer now montant desc).2.historique
        = c.historique ++ [Operation.make now "retrait" montant desc]) := by
  by_cases h1 : montant ≤ 0
  · simp [CompteBancaire.retirer, h1]
  · by_cases h2 : c.solde - montant < -c.decouvert_max
    · simp [CompteBancaire.retirer, h1, h2]
    · simp [CompteBancaire.retirer, h1, h2]

/-- C2 witness: withdrawing `150` from balance `100` with no overdraft fails
and leaves the concrete account unchanged. -/
theorem C2_retirer_contract_witness :
    ((CompteBancaire.mk "A1" "Alice" 100 0 []).retirer "t" 150 "").2
      = CompteBancaire.mk "A1" "Alice" 100 0 [] :=
  (C2_retirer_contract (CompteBancaire.mk "A1" "Alice" 100 0 []) "t" "" 150).2.1
    (by norm_num [CompteBancaire.retirer])

/-- C3: `virement` is all-or-nothing — it fails, leaving the whole ledger
unchanged, exactly when the source id is absent, the destination id is absent,
the two ids coincide, or the source-side withdrawal fails; on success the
source loses exactly the amount and gains one `retrait` entry, the destination
gains exactly the amount and one `depot` entry, and every other account is
untouched. -/
theorem C3_virement_contract (b : Banque) (t1 t2 src dest : String) (montant : ℚ) :
    ((b.virement t1 t2 src dest montant).1 = false →
      (b.virement t1 t2 src dest montant).2 = b) ∧
    ((b.virement t1 t2 src dest montant).1 = false ↔
      lookupCompte b.comptes src = none ∨ lookupCompte b.comptes dest = none ∨
        src = dest ∨
        ∃ c, lookupCompte b.comptes src = some c ∧
          (c.retirer t1 montant ("Virement sortant vers " ++ dest)).1 = false) ∧
    (∀ csrc cdest,
      lookupCompte b.comptes src = some csrc →
      lookupCompte b.comptes dest = some cdest →
      (b.virement t1 t2 src dest montant).1 = true →
      lookupCompte (b.virement t1 t2 src dest montant).2.comptes src
          = some (csrc.retirer t1 montant ("Virement sortant vers " ++ dest)).2 ∧
      lookupCompte (b.virement t1 t2 src dest montant).2.comptes dest
          = some (cdest.deposer t2 montant ("Virement entrant de " ++ src)).2 ∧
      (csrc.retirer t1 montant ("Virement sortant vers " ++ dest)).2.solde
          = csrc.solde - montant ∧
      (csrc.retirer t1 montant ("Virement sortant vers " ++ dest)).2.historique
          = csrc.historique
              ++ [Operation.make t1 "retrait" montant ("Virement sortant vers " ++ dest)] ∧
      (cdest.deposer t2 montant ("Virement entrant de " ++ src)).2.solde
          = cdest.solde + montant ∧
      (cdest.deposer t2 montant ("Virement entrant de " ++ src)).2.historique
          = cdest.historique
              ++ [Operation.make t2 "depot" montant ("Virement entrant de " ++ src)] ∧
      ∀ k, k ≠ src → k ≠ dest →
        lookupCompte (b.virement t1 t2 src dest montant).2.comptes k
          = lookupCompte b.comptes k) := by
  refine ⟨virement_false_state b t1 t2 src dest montant, ?_, ?_⟩
  · cases hs : lookupCompte b.comptes src with
    | none => simp [Banque.virement, hs]
    | some csrc =>
      cases hd : lookupCompte b.comptes dest with
      | none => simp [Banque.virement, hs, hd]
      | some cdest =>
        by_cases he : src = dest
        · simp [Banque.virement, hs, hd, he]
        · by_cases hr :
              (csrc.retirer t1 montant ("Virement sortant vers " ++ dest)).1 = true
          · have ht := (virement_true_comptes b t1 t2 src dest montant csrc cdest
              hs hd he hr).1
            simp [ht, hs, hd, he, hr]
          · simp [Banque.virement, hs, hd, he, hr]
  · intro csrc cdest hs hd htrue
    by_cases he : src = dest
    · exfalso; simp [Banque.virement, hs, hd, he] at htrue
    · by_cases hr : (csrc.retirer t1 montant ("Virement sortant vers " ++ dest)).1 = true
      · obtain ⟨-, hcomptes⟩ :=
          virement_true_comptes b t1 t2 src dest montant csrc cdest hs hd he hr
        have hret := retirer_true csrc t1 ("Virement sortant vers " ++ dest) montant hr
        have hdep := deposer_true cdest t2 ("Virement entrant de " ++ src) montant hret.1
        refine ⟨?_, ?_, hret.2.1, hret.2.2, hdep.2.1, hdep.2.2, ?_⟩
        · rw [hcomptes, lookupCompte_updateCompte_ne _ dest src _ he,
            lookupCompte_updateCompte_self, hs]
          rfl
        · rw [hcomptes, lookupCompte_updateCompte_self,
            lookupCompte_updateCompte_ne _ src dest _ (fun hh => he hh.symm), hd]
          rfl
        · intro k hks hkd
          rw [hcomptes, lookupCompte_updateCompte_ne _ dest k _ hkd,
            lookupCompte_updateCompte_ne _ src k _ hks]
      · exfalso; simp [Banque.virement, hs, hd, he, hr] at htrue

/-- C3 witness: with accounts `A1` (balance 100) and `A2` (balance 0), the
transfer of 40 debits the source account by exactly 40. -/
theorem C3_virement_contract_witness :
    ((CompteBancaire.mk "A1" "Alice" 100 0 []).retirer "t1" 40
        "Virement sortant vers A2").2.solde = 100 - 40 :=
  ((C3_virement_contract
      (Banque.mk [("A1", CompteBancaire.mk "A1" "Alice" 100 0 []),
                  ("A2", CompteBancaire.mk "A2" "Bob" 0 0 [])])
      "t1" "t2" "A1" "A2" 40).2.2
    (CompteBancaire.mk "A1" "Alice" 100 0 []) (CompteBancaire.mk "A2" "Bob" 0 0 [])
    (by simp [lookupCompte]) (by simp [lookupCompte])
    (by simp [Banque.virement, lookupCompte]
        norm_num [CompteBancaire.retirer])).2.2.1

/-- C9: once the source-side withdrawal of a transfer has succeeded, the
destination-side deposit cannot fail — a successful `retirer` forces a
positive amount, `deposer` of a positive amount always succeeds, and inside a
successful `virement` the destination deposit's result is `True`. -/
theorem C9_transfer_credit (b : Banque) (c d : CompteBancaire)
    (t1 t2 src dest desc1 desc2 : String) (montant : ℚ) :
    ((c.retirer t1 montant desc1).1 = true → 0 < montant) ∧
    (0 < montant → (d.deposer t2 montant desc2).1 = true) ∧
    ((c.retirer t1 montant desc1).1 = true → (d.deposer t2 montant desc2).1 = true) ∧
    (∀ csrc cdest, lookupCompte b.comptes src = some csrc →
      lookupCompte b.comptes dest = some cdest →
      (b.virement t1 t2 src dest montant).1 = true →
      (cdest.deposer t2 montant ("Virement entrant de " ++ src)).1 = true) := by
  have h1 : (c.retirer t1 montant desc1).1 = true → 0 < montant :=
    fun h => (retirer_true c t1 desc1 montant h).1
  have h2 : ∀ (d2 : CompteBancaire) (ds : String), 0 < montant →
      (d2.deposer t2 montant ds).1 = true :=
    fun d2 ds h => (deposer_true d2 t2 ds montant h).1
  refine ⟨h1, h2 d desc2, fun h => h2 d desc2 (h1 h), ?_⟩
  intro csrc cdest hs hd htrue
  by_cases he : src = dest
  · exfalso; simp [Banque.virement, hs, hd, he] at htrue
  · by_cases hr : (csrc.retirer t1 montant ("Virement sortant vers " ++ dest)).1 = true
    · exact h2 cdest _ (retirer_true csrc t1 ("Virement sortant vers " ++ dest) montant hr).1
    · exfalso; simp [Banque.virement, hs, hd, he, hr] at htrue

/-- C9 witness: a concrete withdrawal of 40 succeeds, hence the matching
deposit of 40 on the destination succeeds. -/
theorem C9_transfer_credit_witness :
    ((CompteBancaire.mk "A2" "Bob" 0 0 []).deposer "t2" 40 "x").1 = true :=
  (C9_transfer_credit (Banque.mk []) (CompteBancaire.mk "A1" "Alice" 100 0 [])
      (CompteBancaire.mk "A2" "Bob" 0 0 []) "t1" "t2" "s" "d" "w" "x" 40).2.2.1
    (by norm_num [CompteBancaire.retirer])

theorem operation_from_to (op : Operation) : Operation.from_dict op.to_dict = some op := rfl

theorem decodeOps_map_to_dict (l : List Operation) :
    decodeOps (l.map Operation.to_dict) = some l := by
  induction l with
  | nil => rfl
  | cons a t ih => simp [decodeOps, operation_from_to, ih]

theorem compte_from_to (c : CompteBancaire) :
    CompteBancaire.from_dict c.to_dict = some c := by
  cases c with
  | mk num tit s dm hist =>
    simp [CompteBancaire.from_dict, CompteBancaire.to_dict, decodeOps_map_to_dict,
      CompteBancaire.init]

theorem decodeComptes_sauvegarder (l : List (String × CompteBancaire)) :
    decodeComptes (l.map fun p => (p.1, p.2.to_dict)) = some l := by
  induction l with
  | nil => rfl
  | cons p rest ih => simp [decodeComptes, decodeEntry, compte_from_to, ih]

/-- C4: serialisation round-trips — `Operation.from_dict ∘ Operation.to_dict`
and `CompteBancaire.from_dict ∘ CompteBancaire.to_dict` are the identity
(ids, owners, balances, overdraft limits and full histories with their
timestamps included), hence loading a saved ledger reproduces it exactly. -/
theorem C4_roundtrip (op : Operation) (c : CompteBancaire) (b0 b : Banque) :
    Operation.from_dict op.to_dict = some op ∧
    CompteBancaire.from_dict c.to_dict = some c ∧
    b0.charger (FileContent.parsed b.sauvegarder) = b := by
  refine ⟨operation_from_to op, compte_from_to c, ?_⟩
  cases b with
  | mk l => simp [Banque.charger, Banque.sauvegarder, decodeComptes_sauvegarder]

/-- C6: `creer_compte` fails (returning `None`, mapping unchanged) exactly when
the id is already present; otherwise it appends a fresh account under that id
and returns it, and the fresh account's history holds the opening-deposit
operation exactly when the initial balance is positive. -/
theorem C6_creer_compte_contract (b : Banque) (now numero titulaire : String)
    (solde_initial dm : ℚ) :
    ((lookupCompte b.comptes numero).isSome = true →
      (b.creer_compte now numero titulaire solde_initial dm).1 = none ∧
      (b.creer_compte now numero titulaire solde_initial dm).2 = b) ∧
    (lookupCompte b.comptes numero = none →
      (b.creer_compte now numero titulaire solde_initial dm).1
          = some (CompteBancaire.init now numero titulaire solde_initial dm false) ∧
      (b.creer_compte now numero titulaire solde_initial dm).2.comptes
          = b.comptes
              ++ [(numero, CompteBancaire.init now numero titulaire solde_initial dm false)]) ∧
    ((CompteBancaire.init now numero titulaire solde_initial dm false).numero = numero ∧
      (CompteBancaire.init now numero titulaire solde_initial dm false).titulaire = titulaire ∧
      (CompteBancaire.init now numero titulaire solde_initial dm false).solde = solde_initial ∧
      (CompteBancaire.init now numero titulaire solde_initial dm false).decouvert_max = dm) ∧
    ((∃ opn ∈ (CompteBancaire.init now numero titulaire solde_initial dm false).historique,
        opn = Operation.make now "depot" solde_initial "Solde initial")
      ↔ 0 < solde_initial) ∧
    (0 < solde_initial →
      (CompteBancaire.init now numero titulaire solde_initial dm false).historique
        = [Operation.make now "depot" solde_initial "Solde initial"]) ∧
    (solde_initial ≤ 0 →
      (CompteBancaire.init now numero titulaire solde_initial dm false).historique = []) := by
  refine ⟨?_, ?_, ⟨rfl, rfl, rfl, rfl⟩, ?_, ?_, ?_⟩
  · intro h; constructor <;> simp [Banque.creer_compte, h]
  · intro h; constructor <;> simp [Banque.creer_compte, h]
  · by_cases h : 0 < solde_initial
    · simp [CompteBancaire.init, h]
    · simp [CompteBancaire.init, h]
  · intro h; simp [CompteBancaire.init, h]
  · intro h; simp [CompteBancaire.init, not_lt.mpr h]

/-- C6 witness: creating `A1` in the empty ledger returns the freshly built
account. -/
theorem C6_creer_compte_contract_witness :
    ((Banque.mk []).creer_compte "t" "A1" "Alice" 100 0).1
      = some (CompteBancaire.init "t" "A1" "Alice" 100 0 false) :=
  ((C6_creer_compte_contract (Banque.mk []) "t" "A1" "Alice" 100 0).2.1 rfl).1

/-- C7: deserialising an account never adds a synthetic opening-deposit entry:
whenever `from_dict` succeeds, the reconstructed history is exactly the decoded
persisted history (whatever the persisted balance is). -/
theorem C7_from_dict_history (data : CompteRecord) (c : CompteBancaire)
    (h : CompteBancaire.from_dict data = some c) :
    ∃ raw, data.historique = some raw ∧ decodeOps raw = some c.historique := by
  rcases hn : data.numero with _ | num <;>
    rcases ht : data.titulaire with _ | tit <;>
      rcases hs : data.solde with _ | s <;>
        rcases hh : data.historique with _ | raw <;>
          simp [CompteBancaire.from_dict, hn, ht, hs, hh] at h
  rcases ho : decodeOps raw with _ | hist
  · rw [ho] at h; simp at h
  · rw [ho] at h
    simp only [Option.some.injEq] at h
    subst h
    exact ⟨raw, rfl, by rw [ho]⟩

/-- C7 witness: a persisted record with positive balance and empty history
deserialises to an account with empty history. -/
theorem C7_from_dict_history_witness :
    ∃ raw, (CompteRecord.mk (some "A1") (some "Alice") (some 100) none
        (some [])).historique = some raw ∧
      decodeOps raw = some (CompteBancaire.mk "A1" "Alice" 100 0 []).historique :=
  C7_from_dict_history (CompteRecord.mk (some "A1") (some "Alice") (some 100) none (some []))
    (CompteBancaire.mk "A1" "Alice" 100 0 [])
    (by simp [CompteBancaire.from_dict, decodeOps, CompteBancaire.init])

theorem decodeOps_none (raw : List OpRecord) (r : OpRecord) (hr : r ∈ raw)
    (h : Operation.from_dict r = none) : decodeOps raw = none := by
  induction raw with
  | nil => cases hr
  | cons q rest ih =>
    rcases List.mem_cons.mp hr with h1 | h1
    · subst h1; simp [decodeOps, h]
    · cases hq : Operation.from_dict q with
      | none => simp [decodeOps, hq]
      | some o => simp [decodeOps, hq, ih h1]

theorem decodeComptes_none (data : List (String × CompteRecord))
    (p : String × CompteRecord) (hp : p ∈ data)
    (h : CompteBancaire.from_dict p.2 = none) : decodeComptes data = none := by
  induction data with
  | nil => cases hp
  | cons q rest ih =>
    rcases List.mem_cons.mp hp with h1 | h1
    · subst h1; simp [decodeComptes, decodeEntry, h]
    · cases hq : decodeEntry q with
      | none => simp [decodeComptes, hq]
      | some o => simp [decodeComptes, hq, ih h1]

/-- C8: `charger` leaves the mapping unchanged on an absent file; a malformed
file, a record missing `numero`/`titulaire`/`solde`/`historique`, or a history
entry missing `date`/`type`/`montant` make the decode fail and the whole load
yields the empty mapping — never a partial import; when every record decodes,
the mapping is wholly replaced by the decoded accounts. -/
theorem C8_charger_contract (b : Banque) (data : List (String × CompteRecord))
    (rec : CompteRecord) (opr : OpRecord) (raw : List OpRecord)
    (cs : List (String × CompteBancaire)) :
    (b.charger FileContent.absent = b) ∧
    (b.charger FileContent.malformed = Banque.mk []) ∧
    ((rec.numero = none ∨ rec.titulaire = none ∨ rec.solde = none ∨
        rec.historique = none) → CompteBancaire.from_dict rec = none) ∧
    ((opr.date = none ∨ opr.type = none ∨ opr.montant = none) →
      Operation.from_dict opr = none) ∧
    (rec.historique = some raw → (∃ r ∈ raw, Operation.from_dict r = none) →
      CompteBancaire.from_dict rec = none) ∧
    ((∃ p ∈ data, CompteBancaire.from_dict p.2 = none) →
      b.charger (FileContent.parsed data) = Banque.mk []) ∧
    (decodeComptes data = some cs →
      b.charger (FileContent.parsed data) = Banque.mk cs) := by
  refine ⟨rfl, rfl, ?_, ?_, ?_, ?_, ?_⟩
  · intro h
    obtain ⟨n, t, s, d, hi⟩ := rec
    rcases n with _ | n
    · rfl
    · rcases t with _ | t
      · rfl
      · rcases s with _ | s
        · rfl
        · rcases hi with _ | hi
          · rfl
          · exfalso
            simp only at h
            rcases h with h | h | h | h <;> exact Option.noConfusion h
  · intro h
    obtain ⟨dt, ty, m, de⟩ := opr
    rcases ty with _ | ty
    · rfl
    · rcases m with _ | m
      · rfl
      · rcases dt with _ | dt
        · rfl
        · exfalso
          simp only at h
          rcases h with h | h | h <;> exact Option.noConfusion h
  · intro hh hex
    obtain ⟨r, hr, hrn⟩ := hex
    obtain ⟨n, t, s, d, hi⟩ := rec
    simp only at hh
    subst hh
    rcases n with _ | n
    · rfl
    · rcases t with _ | t
      · rfl
      · rcases s with _ | s
        · rfl
        · simp [CompteBancaire.from_dict, decodeOps_none raw r hr hrn]
  · intro h
    obtain ⟨p, hp, hn⟩ := h
    simp [Banque.charger, decodeComptes_none data p hp hn]
  · intro h
    simp [Banque.charger, h]

/-- C8 witness: one record missing its `numero` wipes the in-memory mapping on
load instead of importing the other state. -/
theorem C8_charger_contract_witness :
    (Banque.mk [("B7", CompteBancaire.mk "B7" "Bob" 5 0 [])]).charger
        (FileContent.parsed
          [("A1", CompteRecord.mk none (some "Alice") (some 100) none (some []))])
      = Banque.mk [] :=
  (C8_charger_contract (Banque.mk [("B7", CompteBancaire.mk "B7" "Bob" 5 0 [])])
      [("A1", CompteRecord.mk none (some "Alice") (some 100) none (some []))]
      (CompteRecord.mk none (some "Alice") (some 100) none (some []))
      (OpRecord.mk none none none none) [] []).2.2.2.2.2.1
    ⟨("A1", CompteRecord.mk none (some "Alice") (some 100) none (some [])),
      List.mem_cons_self _ _, rfl⟩

/-- C10 is false as stated: with initial balance `-5` and overdraft limit
`10`, `creer_compte` succeeds, the balance is the negative initial balance and
the history is empty — but the balance is NOT below `-overdraft_limit`. -/
theorem C10_no_validation_cex :
    ((Banque.mk []).creer_compte "t" "A1" "Alice" (-5) 10).1
        = some (CompteBancaire.init "t" "A1" "Alice" (-5) 10 false) ∧
    (CompteBancaire.init "t" "A1" "Alice" (-5) 10 false).solde = -5 ∧
    (CompteBancaire.init "t" "A1" "Alice" (-5) 10 false).historique = [] ∧
    ¬ ((CompteBancaire.init "t" "A1" "Alice" (-5) 10 false).solde
        < -(CompteBancaire.init "t" "A1" "Alice" (-5) 10 false).decouvert_max) := by
  refine ⟨rfl, rfl, ?_, ?_⟩
  · norm_num [CompteBancaire.init]
  · norm_num [CompteBancaire.init]

/-- C10 (amended): `creer_compte` performs no validation of its numeric
arguments — for every negative initial balance and fresh id it succeeds, the
new account's balance equals the initial balance, its history is empty, and
the balance is below `-overdraft_limit` whenever
`initial_balance < -overdraft_limit` (in particular for a zero overdraft
limit). -/
theorem C10_no_validation_amended (b : Banque) (now numero titulaire : String)
    (solde_initial dm : ℚ) (hneg : solde_initial < 0)
    (hfresh : lookupCompte b.comptes numero = none) :
    (b.creer_compte now numero titulaire solde_initial dm).1
        = some (CompteBancaire.init now numero titulaire solde_initial dm false) ∧
    (CompteBancaire.init now numero titulaire solde_initial dm false).solde
        = solde_initial ∧
    (CompteBancaire.init now numero titulaire solde_initial dm false).historique = [] ∧
    (solde_initial < -dm →
      (CompteBancaire.init now numero titulaire solde_initial dm false).solde
        < -(CompteBancaire.init now numero titulaire solde_initial dm false).decouvert_max) := by
  refine ⟨?_, rfl, ?_, fun h => h⟩
  · simp [Banque.creer_compte, hfresh]
  · simp [CompteBancaire.init, not_lt.mpr hneg.le]

/-- C10 witness: creating `A1` with balance `-5` and overdraft `0` in the
empty ledger succeeds. -/
theorem C10_no_validation_amended_witness :
    ((Banque.mk []).creer_compte "t" "A1" "Alice" (-5) 0).1
      = some (CompteBancaire.init "t" "A1" "Alice" (-5) 0 false) :=
  (C10_no_validation_amended (Banque.mk []) "t" "A1" "Alice" (-5) 0
      (by norm_num) rfl).1

end BanqueSim
